import Mathlib

/-!
Verification of the exec-helpers core (subprocess runner + abstract API)
against its natural-language specification.

The development shallowly embeds the two source files:
  * `exec_helpers/api.py` — the command masker (`ExecHelper._mask_command`
    and its inner `mask` function) and the `execute` facade;
  * `exec_helpers/subprocess_runner.py` — `Subprocess._exec_command`
    (the wait / timeout / kill state machine), `Subprocess.execute_async`
    (process launch and stdin feeding) and the `SingletonMeta` metaclass.

External effects (the regex engine, `Popen.wait/poll/kill`, pipe writes)
are represented by explicit inputs: a masking rule is represented by the
group spans its matches produce, and the process interface by a record of
the results each call would return.  The Python code is then a pure
function of those inputs, translated line by line.
-/

namespace ExecHelpers

/-! ## Command masker (api.py, `ExecHelper._mask_command` / inner `mask`)

Python strings are modelled as `List Char`; `match.span(i)` results are
`Int × Int` pairs (Python returns `(-1, -1)` for a group that did not
participate in a match, so the values can be negative). -/

/-- The fixed redaction marker `'<*masked*>'` used by the source. -/
def pyMarker : List Char := ['<', '*', 'm', 'a', 's', 'k', 'e', 'd', '*', '>']

/-- Python index normalisation for slicing: a negative index counts from
the end (clamped at 0), a nonnegative one is clamped at the length. -/
def pyIdx (n : Nat) (i : Int) : Nat :=
  if i < 0 then ((n : Int) + i).toNat else min i.toNat n

/-- Python slice `s[a:b]` (empty when the normalised start is not below
the normalised end), as used by `text[start: end]` in the source. -/
def pySlice (s : List Char) (a b : Int) : List Char :=
  (s.take (pyIdx s.length b)).drop (pyIdx s.length a)

/-- The flattened `indexes.extend(match.span(idx + 1))` loop of the
source: all group spans of all matches, in scan order, as a flat list of
boundary positions. -/
def spanFlatten (ms : List (List (Int × Int))) : List Int :=
  ms.join.bind (fun p => [p.1, p.2])

/-- The replacement loop of the source `mask` function: consume the
boundary list two entries at a time, emitting `text[start: end]` followed
by the marker for every pair except the final `text[indexes[-2]: indexes[-1]]`. -/
def spliceMask (text : List Char) : List Int → List Char
  | a :: b :: c :: rest => pySlice text a b ++ pyMarker ++ spliceMask text (c :: rest)
  | [a, b] => pySlice text a b
  | _ => []

/-- The source `mask(text, rules)` function, with the regex engine
abstracted: `matches` is the list of matches `re.finditer(rules, text)`
yields, each match given by the `span` of each of its groups in order.
`indexes = [0] ++ all group spans ++ [len(text)]`. -/
def mask (text : List Char) (ms : List (List (Int × Int))) : List Char :=
  spliceMask text ((0 : Int) :: (spanFlatten ms ++ [(text.length : Int)]))

/-- Python whitespace for `str.rstrip()`. -/
def isPySpace (c : Char) : Bool :=
  c == ' ' || c == '\t' || c == '\n' || c == '\r' || c == '\x0b' || c == '\x0c'

/-- Python `str.rstrip()`: drop trailing whitespace. -/
def pyRstrip (s : String) : String :=
  String.mk ((s.data.reverse.dropWhile isPySpace).reverse)

/-- A masking rule, abstracted over the regex engine: for each input text
it yields the group spans of the matches `re.finditer` finds. -/
def MaskRule : Type := String → List (List (Int × Int))

/-- Apply the source `mask` function to a string under a rule. -/
def maskStr (rule : MaskRule) (s : String) : String :=
  String.mk (mask s.data (rule s))

/-- `ExecHelper._mask_command`: `cmd.rstrip()`, then the instance-level
rule (when present), then the call-level rule (when present). -/
def maskCommand (instRule callRule : Option MaskRule) (cmd : String) : String :=
  let c := pyRstrip cmd
  let c1 := match instRule with
    | some r => maskStr r c
    | none => c
  match callRule with
  | some r => maskStr r c1
  | none => c1

/-! ### Specification-side masking transform

Modelled from the spec's words (§4.1): "every captured group's span is
replaced by a fixed redaction marker; all non-matched spans, including
the literal text between/around groups and match boundaries, pass
through unchanged".  Spans of captured groups are genuine positions,
hence natural numbers; the transform walks the text left to right. -/

/-- Walk the text from position `cur`, replacing each listed span by the
marker and copying everything in between. -/
def maskSpecAux (text : List Char) : Nat → List (Nat × Nat) → List Char
  | cur, [] => text.drop cur
  | cur, (a, b) :: rest => (text.take a).drop cur ++ pyMarker ++ maskSpecAux text b rest

/-- Spec-side masking: replace exactly the captured group spans (given in
left-to-right scan order) by the marker, leaving all other characters
unchanged. -/
def maskSpec (text : List Char) (spans : List (Nat × Nat)) : List Char :=
  maskSpecAux text 0 spans

/-- The group spans form a monotone chain starting at `c` and staying
within a text of length `n`: each span is well ordered and they do not
overlap or run backwards. -/
def spanChain : Nat → List (Nat × Nat) → Nat → Bool
  | c, [], n => decide (c ≤ n)
  | c, (a, b) :: rest, n => decide (c ≤ a) && decide (a ≤ b) && spanChain b rest n

/-- Cast a genuine (participating) group span to the `Int` pairs the
regex interface hands to `mask`. -/
def spanToInt (p : Nat × Nat) : Int × Int := ((p.1 : Int), (p.2 : Int))

/-- Flatten genuine spans to the boundary list, on the `Int` side. -/
def spansToInts (spans : List (Nat × Nat)) : List Int :=
  spans.bind (fun p => [(p.1 : Int), (p.2 : Int)])

theorem spanChain_le (rest : List (Nat × Nat)) (b n : Nat)
    (h : spanChain b rest n = true) : b ≤ n := by
  induction rest generalizing b with
  | nil => simpa [spanChain] using h
  | cons p tail ih =>
      obtain ⟨a2, b2⟩ := p
      simp only [spanChain, Bool.and_eq_true, decide_eq_true_eq] at h
      exact le_trans h.1.1 (le_trans h.1.2 (ih b2 h.2))

theorem pyIdx_natCast (n a : Nat) (ha : a ≤ n) : pyIdx n (a : Int) = a := by
  unfold pyIdx
  rw [if_neg (by omega)]
  simp [Nat.min_eq_left ha]

theorem pySlice_natCast (text : List Char) (a b : Nat)
    (ha : a ≤ text.length) (hb : b ≤ text.length) :
    pySlice text (a : Int) (b : Int) = (text.take b).drop a := by
  unfold pySlice
  rw [pyIdx_natCast _ _ hb, pyIdx_natCast _ _ ha]

theorem spliceMask_chain (text : List Char) (spans : List (Nat × Nat)) :
    ∀ c : Nat, spanChain c spans text.length = true →
    spliceMask text ((c : Int) :: (spansToInts spans ++ [(text.length : Int)])) =
      maskSpecAux text c spans := by
  induction spans with
  | nil =>
      intro c h
      have hc : c ≤ text.length := by simpa [spanChain] using h
      show spliceMask text [(c : Int), (text.length : Int)] = _
      rw [spliceMask, pySlice_natCast text c text.length hc le_rfl]
      simp [maskSpecAux]
  | cons p rest ih =>
      intro c h
      obtain ⟨a, b⟩ := p
      simp only [spanChain, Bool.and_eq_true, decide_eq_true_eq] at h
      obtain ⟨⟨hca, hab⟩, hrest⟩ := h
      have hb : b ≤ text.length := spanChain_le rest b text.length hrest
      have ha : a ≤ text.length := le_trans hab hb
      show spliceMask text
          ((c : Int) :: (a : Int) :: (b : Int) :: (spansToInts rest ++ [(text.length : Int)])) = _
      rw [spliceMask, pySlice_natCast text c a (le_trans hca ha) ha, ih b hrest]
      rfl

theorem castSpans_bind (l : List (Nat × Nat)) :
    (l.map spanToInt).bind (fun p => [p.1, p.2]) = spansToInts l := by
  induction l with
  | nil => rfl
  | cons p rest ih =>
      simp only [List.map_cons, List.cons_bind, ih, spansToInts, spanToInt]

theorem spanFlatten_castSpans (M : List (List (Nat × Nat))) :
    spanFlatten (M.map (List.map spanToInt)) = spansToInts M.join := by
  induction M with
  | nil => rfl
  | cons g rest ih =>
      have h1 : spanFlatten ((g :: rest).map (List.map spanToInt))
          = (g.map spanToInt).bind (fun p => [p.1, p.2])
            ++ spanFlatten (rest.map (List.map spanToInt)) := by
        simp only [spanFlatten, List.map_cons, List.join_cons, List.append_bind]
      have h2 : spansToInts ((g :: rest).join) = spansToInts g ++ spansToInts rest.join := by
        simp only [List.join_cons, spansToInts, List.append_bind]
      rw [h1, h2, castSpans_bind, ih]

/-- C3: for every text and every masking rule with at least one capturing
group, `mask` replaces exactly the span of each captured group of each
match (scanning matches left to right) by the fixed marker `<*masked*>`,
and every character outside those group spans appears unchanged.
Amended: this holds provided every group participates in each match and
the group spans form a monotone left-to-right chain (no nesting or
overlap); the theorem states it as equality with the spec-side transform
`maskSpec`.  (When a group does not participate in a match, `re.finditer`
reports span `(-1, -1)` and the source splices in a spurious extra
marker; see the counterexample.) -/
theorem mask_eq_maskSpec (text : List Char) (ms : List (List (Nat × Nat)))
    (h : spanChain 0 ms.join text.length = true) :
    mask text (ms.map (List.map spanToInt)) = maskSpec text ms.join := by
  unfold mask maskSpec
  rw [spanFlatten_castSpans]
  exact spliceMask_chain text ms.join 0 h

/-- C3 witness: masking `pw=sec` under a rule whose single group captures
the span `(3, 6)` (the secret) gives exactly the spec-side transform. -/
theorem mask_eq_maskSpec_witness :
    spanChain 0 [(3, 6)] (['p', 'w', '=', 's', 'e', 'c'].length) = true
    ∧ mask ['p', 'w', '=', 's', 'e', 'c']
        (([[(3, 6)]] : List (List (Nat × Nat))).map (List.map spanToInt))
      = maskSpec ['p', 'w', '=', 's', 'e', 'c']
        ([[(3, 6)]] : List (List (Nat × Nat))).join :=
  ⟨by decide, mask_eq_maskSpec ['p', 'w', '=', 's', 'e', 'c'] [[(3, 6)]] (by decide)⟩

/-- C3 counterexample: the rule `(x)|(b)` applied to the text `b` has one
match in which group 1 does not participate (Python reports its span as
`(-1, -1)`) and group 2 captures span `(0, 1)`.  The claim predicts the
output `<*masked*>` (the single captured span replaced, nothing else),
but the source emits `<*masked*><*masked*>`: the dead span splices in an
extra marker, so the output is not the claimed transform. -/
theorem mask_counterexample_c3 :
    mask ['b'] [[((-1 : Int), (-1 : Int)), ((0 : Int), (1 : Int))]] = pyMarker ++ pyMarker
    ∧ maskSpec ['b'] [(0, 1)] = pyMarker
    ∧ mask ['b'] [[((-1 : Int), (-1 : Int)), ((0 : Int), (1 : Int))]]
        ≠ maskSpec ['b'] [(0, 1)] := by
  refine ⟨by decide, by decide, by decide⟩

/-! ## Logging (module `logger` plus the facade logger)

Each emitted record is modelled by its level, which statement in the
source produced it, the command text it interpolates (empty when the
message holds none) and the exit-code information it reports (`none`
when the message reports no exit status). -/

inductive LogLevel where
  | debug
  | info
  | warning
deriving DecidableEq, Repr

inductive LogKind where
  | execStart
  | stdinClosedPipe
  | stdinBrokenPipe
  | completedAfterTimeout
  | waitError
  | execSummary
deriving DecidableEq, Repr

structure LogEntry where
  level : LogLevel
  kind : LogKind
  cmd : String
  exitInfo : Option (Option Int)
deriving DecidableEq, Repr

/-! ## ExecResult and the wait / timeout / kill state machine
(subprocess_runner.py, `Subprocess._exec_command`)

`ExecResult(cmd=cmd_for_log)` accumulates the two drained streams and the
exit code.  The two drainer futures append the bytes the process produced
into the result; by every return or raise point the captured bytes are in
the result, so the model carries them as environment fields. -/

structure ExecResult where
  cmd : String
  exit_code : Option Int
  stdout : List Nat
  stderr : List Nat
deriving DecidableEq, Repr

/-- Calls `_exec_command` makes on the `subprocess.Popen` interface. -/
inductive ProcCall where
  | waitCall
  | pollCall
  | killCall
deriving DecidableEq, Repr

/-- The behaviour of the external process during one `_exec_command` run:
what each interface call would return, plus the bytes the drainer futures
capture from the two pipes. -/
structure ProcEnv where
  waitResult : Option Int
  pollAfterTimeout : Option Int
  killRaises : Bool
  pollAfterKill : Option Int
  capturedStdout : List Nat
  capturedStderr : List Nat

/-- How `_exec_command` ends: a returned result, a raised
`ExecHelperTimeoutError` (carrying the partial result and the timeout
value), or a propagated `OSError` (carrying neither). -/
inductive ExecOutcome where
  | ok : ExecResult → ExecOutcome
  | timeoutErr : ExecResult → Option Int → ExecOutcome
  | osError : ExecOutcome
deriving DecidableEq, Repr

/-- `Subprocess._exec_command`: wait bounded by the timeout; on
`TimeoutExpired` re-poll once; if an exit code is present, return the
result; otherwise kill and either raise the timeout error (kill
succeeded) or re-poll and return / re-raise (kill raised `OSError`).
Returns the outcome, the log records emitted, and the trace of interface
calls made. -/
def execCommandModel (command : String) (instRule callRule : Option MaskRule)
    (timeout : Option Int) (verbose : Bool) (env : ProcEnv) :
    ExecOutcome × List LogEntry × List ProcCall :=
  let cmdForLog := maskCommand instRule callRule command
  let base : ExecResult :=
    { cmd := cmdForLog, exit_code := none,
      stdout := env.capturedStdout, stderr := env.capturedStderr }
  match env.waitResult with
  | some code => (.ok { base with exit_code := some code }, [], [.waitCall])
  | none =>
      match env.pollAfterTimeout with
      | some code => (.ok { base with exit_code := some code }, [], [.waitCall, .pollCall])
      | none =>
          if env.killRaises then
            match env.pollAfterKill with
            | some code =>
                (.ok { base with exit_code := some code },
                 [⟨.warning, .completedAfterTimeout, command, none⟩],
                 [.waitCall, .pollCall, .killCall, .pollCall])
            | none =>
                (.osError, [], [.waitCall, .pollCall, .killCall, .pollCall])
          else
            (.timeoutErr base timeout,
             [⟨.debug, .waitError, cmdForLog, some none⟩],
             [.waitCall, .pollCall, .killCall])

/-! ## Process launch (subprocess_runner.py, `Subprocess.execute_async`) -/

/-- Linux errno values compared against in the source. -/
def EINVAL : Nat := 22

def EPIPE : Nat := 32

def ESHUTDOWN : Nat := 108

/-- The broken-pipe family of errors the source downgrades: `EINVAL`
(Windows closed-pipe case), `EPIPE` and `ESHUTDOWN`. -/
def pipeFamily (e : Nat) : Bool :=
  e == EINVAL || e == EPIPE || e == ESHUTDOWN

/-- The `stdin` argument: text (utf-8 encoded before writing), bytes, or
a bytearray (copied to bytes). -/
inductive StdinData where
  | str : String → StdinData
  | bytes : List Nat → StdinData
  | byteArr : List Nat → StdinData
deriving DecidableEq, Repr

def encodeStdin : StdinData → List Nat
  | .str s => s.toUTF8.toList.map (fun b => b.toNat)
  | .bytes b => b
  | .byteArr b => b

/-- The arguments of the one `subprocess.Popen` call the source makes. -/
structure PopenCall where
  args : List String
  useStdoutPipe : Bool
  useStderrPipe : Bool
  shell : Bool
  cwd : Option String
  env : Option (List (String × String))
deriving DecidableEq, Repr

/-- Everything handed to the spawned process: the `Popen` arguments plus
the stdin payload written to its pipe (when one was supplied). -/
structure LaunchRecord where
  popen : PopenCall
  stdinWritten : Option (List Nat)
deriving DecidableEq, Repr

/-- The behaviour of the stdin pipe during the launch: the errno each
operation would raise, `none` for success. -/
structure AsyncEnv where
  writeErr : Option Nat
  closeErr : Option Nat
deriving DecidableEq, Repr

/-- The observable effect of one `execute_async` call: the launch, whether
`process.kill()` was invoked, the errno re-raised to the caller (`none`
when the `ExecutionHandle` was returned normally), and the log records. -/
structure AsyncResult where
  launch : LaunchRecord
  killed : Bool
  raisedErrno : Option Nat
  logs : List LogEntry
deriving DecidableEq, Repr

/-- The `process.stdin.close()` block of the source: `EINVAL`, `EPIPE`
and `ESHUTDOWN` pass silently; any other errno kills the process and
re-raises. -/
def closeStdinPhase (launch : LaunchRecord) (logs : List LogEntry)
    (closeErr : Option Nat) : AsyncResult :=
  match closeErr with
  | none => ⟨launch, false, none, logs⟩
  | some e =>
      if e == EINVAL || e == EPIPE || e == ESHUTDOWN then ⟨launch, false, none, logs⟩
      else ⟨launch, true, some e, logs⟩

/-- `Subprocess.execute_async`: mask the command for the start log record,
spawn via `Popen(args=[command], shell=True, ...)`, then, when a stdin
payload was supplied, write it (downgrading `EINVAL` to a closed-pipe
warning and `EPIPE`/`ESHUTDOWN` to a broken-pipe warning, killing and
re-raising on any other errno) and close the stream (same family passes
silently, others kill and re-raise). -/
def executeAsyncModel (command : String) (stdin : Option StdinData)
    (open_stdout open_stderr : Bool) (verbose : Bool)
    (instRule callRule : Option MaskRule)
    (cwd : Option String) (envOv : Option (List (String × String)))
    (aenv : AsyncEnv) : AsyncResult :=
  let cmdForLog := maskCommand instRule callRule command
  let startLog : LogEntry := ⟨if verbose then .info else .debug, .execStart, cmdForLog, none⟩
  let popen : PopenCall :=
    { args := [command], useStdoutPipe := open_stdout, useStderrPipe := open_stderr,
      shell := true, cwd := cwd, env := envOv }
  let launch : LaunchRecord := ⟨popen, (stdin.map encodeStdin)⟩
  match stdin with
  | none => ⟨launch, false, none, [startLog]⟩
  | some _ =>
      match aenv.writeErr with
      | some e =>
          if e == EINVAL then
            closeStdinPhase launch
              [startLog, ⟨.warning, .stdinClosedPipe, "", none⟩] aenv.closeErr
          else if e == EPIPE || e == ESHUTDOWN then
            closeStdinPhase launch
              [startLog, ⟨.warning, .stdinBrokenPipe, "", none⟩] aenv.closeErr
          else ⟨launch, true, some e, [startLog]⟩
      | none => closeStdinPhase launch [startLog] aenv.closeErr

/-! ## The execute facade (api.py, `ExecHelper.execute`) -/

/-- How one `execute` call ends for the caller. -/
inductive ExecuteOutcome where
  | ok : ExecResult → ExecuteOutcome
  | timeoutErr : ExecResult → Option Int → ExecuteOutcome
  | osError : ExecuteOutcome
  | launchErr : Nat → ExecuteOutcome
deriving DecidableEq, Repr

/-- The observable trace of one `execute` call. -/
structure ExecuteTrace where
  launch : LaunchRecord
  outcome : ExecuteOutcome
  logs : List LogEntry
  procCalls : List ProcCall
deriving DecidableEq, Repr

/-- `ExecHelper.execute`: under the lock, `execute_async` then
`_exec_command`; when the latter returns a result, log the one summary
record `Command {result.cmd!r} exit code: {result.exit_code!s}` at info
level when verbose else debug; a raised error propagates past that log
statement. -/
def executeModel (command : String) (stdin : Option StdinData)
    (open_stdout open_stderr : Bool)
    (instRule callRule : Option MaskRule) (verbose : Bool) (timeout : Option Int)
    (cwd : Option String) (envOv : Option (List (String × String)))
    (aenv : AsyncEnv) (penv : ProcEnv) : ExecuteTrace :=
  let ar := executeAsyncModel command stdin open_stdout open_stderr verbose
    instRule callRule cwd envOv aenv
  match ar.raisedErrno with
  | some e => ⟨ar.launch, .launchErr e, ar.logs, []⟩
  | none =>
      match execCommandModel command instRule callRule timeout verbose penv with
      | (.ok r, lgs, calls) =>
          ⟨ar.launch, .ok r,
           ar.logs ++ lgs
             ++ [⟨if verbose then .info else .debug, .execSummary, r.cmd, some r.exit_code⟩],
           calls⟩
      | (.timeoutErr r t, lgs, calls) => ⟨ar.launch, .timeoutErr r t, ar.logs ++ lgs, calls⟩
      | (.osError, lgs, calls) => ⟨ar.launch, .osError, ar.logs ++ lgs, calls⟩

/-- A log record that reports the outcome of an execution (the masked
command together with the resulting or absent exit status): the facade
summary record and the state machine's wait-error record.  The start
record and the warnings report no exit status. -/
def reportsOutcome (k : LogKind) : Bool :=
  k == .execSummary || k == .waitError

/-! ## Singleton metaclass (subprocess_runner.py, `SingletonMeta`) -/

/-- The one `Subprocess` instance: its state is the masking rule the
constructor stored. -/
structure SubprocessInst where
  log_mask_re : Option MaskRule

/-- `SingletonMeta.__call__` for the `Subprocess` class: the registry
holds at most one instance; a call constructs one only when the registry
is empty, otherwise the stored instance is returned and the arguments of
the call are ignored.  Returns the instance and the updated registry. -/
def singletonCall (registry : Option SubprocessInst) (log_mask_re : Option MaskRule) :
    SubprocessInst × Option SubprocessInst :=
  match registry with
  | some inst => (inst, some inst)
  | none =>
      let inst : SubprocessInst := ⟨log_mask_re⟩
      (inst, some inst)

/-! ## Claims about the wait / timeout / kill state machine -/

/-- C2: for every execution whose bounded wait expires, the exit code is
re-checked once after the timeout fires (the call trace shows exactly one
`poll`), and if the process has exited by then — including at the exact
instant the bound expires — the execution is classified as success: the
`ExecResult` gets that late exit code and is returned, with no timeout
failure raised. -/
theorem exec_late_exit_success (command : String) (instRule callRule : Option MaskRule)
    (timeout : Option Int) (verbose : Bool) (env : ProcEnv) (c : Int)
    (h1 : env.waitResult = none) (h2 : env.pollAfterTimeout = some c) :
    execCommandModel command instRule callRule timeout verbose env
      = (.ok ⟨maskCommand instRule callRule command, some c,
           env.capturedStdout, env.capturedStderr⟩,
         [], [.waitCall, .pollCall]) := by
  unfold execCommandModel
  rw [h1, h2]

/-- C2 witness: a process that exits with code 0 exactly when the wait
bound expires is returned as success, after one re-poll. -/
theorem exec_late_exit_success_witness :
    execCommandModel "printf hi" none none (some 5) false
        ⟨none, some 0, false, none, [104, 105], []⟩
      = (.ok ⟨"printf hi", some 0, [104, 105], []⟩, [], [.waitCall, .pollCall]) := by
  have h := exec_late_exit_success "printf hi" none none (some 5) false
    ⟨none, some 0, false, none, [104, 105], []⟩ 0 rfl rfl
  rw [h]
  decide

/-- C1 (amended): when the forced kill succeeds and no exit code was
obtained, `_exec_command` raises the timeout failure carrying the partial
`ExecResult` (with the output captured so far) and the requested timeout
value; and on every path that returns a result, the result carries the
captured output.  The original claim extends this to the termination
failure path, but when `kill` raises an `OSError` and no exit code is
available, the bare `OSError` propagates without the result (see the
counterexample), so captured output is preserved only on the success and
timeout paths. -/
theorem exec_timeout_preserves_output (command : String) (instRule callRule : Option MaskRule)
    (timeout : Option Int) (verbose : Bool) (env : ProcEnv) :
    (env.waitResult = none → env.pollAfterTimeout = none → env.killRaises = false →
      (execCommandModel command instRule callRule timeout verbose env).1
        = .timeoutErr ⟨maskCommand instRule callRule command, none,
            env.capturedStdout, env.capturedStderr⟩ timeout)
    ∧ (∀ r, (execCommandModel command instRule callRule timeout verbose env).1 = .ok r →
        r.stdout = env.capturedStdout ∧ r.stderr = env.capturedStderr) := by
  obtain ⟨w, p, kr, pk, so, se⟩ := env
  constructor
  · intro h1 h2 h3
    simp only at h1 h2 h3
    subst h1; subst h2; subst h3
    rfl
  · intro r hr
    cases w <;> cases p <;> cases kr <;> cases pk <;>
      simp_all [execCommandModel] <;> subst hr <;> exact ⟨rfl, rfl⟩

/-- C1 witness: with stdout bytes `hi` captured and a successful kill,
the raised timeout failure carries the partial result and the timeout. -/
theorem exec_timeout_preserves_output_witness :
    (execCommandModel "sleep 5" none none (some 5) false
        ⟨none, none, false, none, [104, 105], []⟩).1
      = .timeoutErr ⟨"sleep 5", none, [104, 105], []⟩ (some 5) := by
  have h := (exec_timeout_preserves_output "sleep 5" none none (some 5) false
    ⟨none, none, false, none, [104, 105], []⟩).1 rfl rfl rfl
  rw [h]
  decide

/-- C1 counterexample: when the kill call raises an `OSError` and the
re-poll still finds no exit code, no exit code was obtained after the
kill escalation, yet `_exec_command` re-raises the bare `OSError` — not
an `ExecHelperTimeoutError` — and the `ExecResult` holding the captured
stdout bytes `hi` is attached to nothing: the output is dropped on this
exit path. -/
theorem exec_kill_failure_drops_result :
    execCommandModel "spin" none none (some 5) false
        ⟨none, none, true, none, [104, 105], []⟩
      = (.osError, [], [.waitCall, .pollCall, .killCall, .pollCall]) := by
  decide

/-- C4: if the forced kill raises an `OSError` and the process's exit
code is then available, `_exec_command` returns a successful `ExecResult`
carrying that exit code (logging a warning); if the kill fails and no
exit code is available, the `OSError` propagates to the caller. -/
theorem exec_kill_oserror (command : String) (instRule callRule : Option MaskRule)
    (timeout : Option Int) (verbose : Bool) (env : ProcEnv)
    (h1 : env.waitResult = none) (h2 : env.pollAfterTimeout = none)
    (h3 : env.killRaises = true) :
    (∀ c, env.pollAfterKill = some c →
      execCommandModel command instRule callRule timeout verbose env
        = (.ok ⟨maskCommand instRule callRule command, some c,
             env.capturedStdout, env.capturedStderr⟩,
           [⟨.warning, .completedAfterTimeout, command, none⟩],
           [.waitCall, .pollCall, .killCall, .pollCall]))
    ∧ (env.pollAfterKill = none →
      execCommandModel command instRule callRule timeout verbose env
        = (.osError, [], [.waitCall, .pollCall, .killCall, .pollCall])) := by
  constructor
  · intro c hc
    unfold execCommandModel
    rw [h1, h2, h3, hc]
    simp
  · intro hc
    unfold execCommandModel
    rw [h1, h2, h3, hc]
    simp

/-- C4 witness: a kill `OSError` with exit code 137 then available gives
a returned result; with no exit code available the `OSError` propagates. -/
theorem exec_kill_oserror_witness :
    execCommandModel "spin" none none (some 1) false
        ⟨none, none, true, some 137, [7], []⟩
      = (.ok ⟨"spin", some 137, [7], []⟩,
         [⟨.warning, .completedAfterTimeout, "spin", none⟩],
         [.waitCall, .pollCall, .killCall, .pollCall])
    ∧ (execCommandModel "spin" none none (some 1) false
        ⟨none, none, true, none, [7], []⟩).1 = .osError := by
  constructor
  · have h := (exec_kill_oserror "spin" none none (some 1) false
      ⟨none, none, true, some 137, [7], []⟩ rfl rfl rfl).1 137 rfl
    rw [h]
    decide
  · have h := (exec_kill_oserror "spin" none none (some 1) false
      ⟨none, none, true, none, [7], []⟩ rfl rfl rfl).2 rfl
    rw [h]

/-- C9: whenever the forced kill succeeds, `_exec_command` unconditionally
raises `ExecHelperTimeoutError` without polling the process again (the
call trace ends at the kill), so the attached `ExecResult` always has an
absent exit code — for every environment, in particular even when a
further poll would have found an exit code (`env.pollAfterKill` is
arbitrary and unread on this path). -/
theorem exec_kill_success_no_repoll (command : String) (instRule callRule : Option MaskRule)
    (timeout : Option Int) (verbose : Bool) (env : ProcEnv)
    (h1 : env.waitResult = none) (h2 : env.pollAfterTimeout = none)
    (h3 : env.killRaises = false) :
    execCommandModel command instRule callRule timeout verbose env
      = (.timeoutErr ⟨maskCommand instRule callRule command, none,
           env.capturedStdout, env.capturedStderr⟩ timeout,
         [⟨.debug, .waitError, maskCommand instRule callRule command, some none⟩],
         [.waitCall, .pollCall, .killCall]) := by
  unfold execCommandModel
  rw [h1, h2, h3]
  simp

/-- C9 witness: even though the killed process has in fact exited (a poll
would return 0), the timeout error is raised with an absent exit code and
no poll follows the kill. -/
theorem exec_kill_success_no_repoll_witness :
    execCommandModel "sleep 9" none none (some 1) false
        ⟨none, none, false, some 0, [], []⟩
      = (.timeoutErr ⟨"sleep 9", none, [], []⟩ (some 1),
         [⟨.debug, .waitError, "sleep 9", some none⟩],
         [.waitCall, .pollCall, .killCall]) := by
  have h := exec_kill_success_no_repoll "sleep 9" none none (some 1) false
    ⟨none, none, false, some 0, [], []⟩ rfl rfl rfl
  rw [h]
  decide

/-- C10: constructing `Subprocess` is idempotent: the first call stores an
instance built from its `log_mask_re` argument, and every later call
returns that same stored instance, ignoring its own argument, so the
originally configured masking rule remains in effect. -/
theorem subprocess_singleton (r1 r2 : Option MaskRule) :
    (singletonCall none r1).1.log_mask_re = r1
    ∧ singletonCall (singletonCall none r1).2 r2
        = ((singletonCall none r1).1, (singletonCall none r1).2)
    ∧ (singletonCall (singletonCall none r1).2 r2).1.log_mask_re = r1 :=
  ⟨rfl, rfl, rfl⟩

/-! ## Claims about the launcher and the facade -/

theorem executeAsync_launch_eq (command : String) (stdin : Option StdinData)
    (os oe verbose : Bool) (instRule callRule : Option MaskRule)
    (cwd : Option String) (envOv : Option (List (String × String))) (aenv : AsyncEnv) :
    (executeAsyncModel command stdin os oe verbose instRule callRule cwd envOv aenv).launch
      = ⟨⟨[command], os, oe, true, cwd, envOv⟩, stdin.map encodeStdin⟩ := by
  obtain ⟨we, ce⟩ := aenv
  unfold executeAsyncModel closeStdinPhase
  cases stdin <;> cases we <;> cases ce <;> dsimp only <;> split_ifs <;> rfl

/-- C5: the command string handed to the spawned process by
`execute_async` is the original unmasked command, and changing or
removing the masking rules (instance default and per-call) never changes
the process's arguments, stdin payload, or any other launch parameter —
only the log records can differ. -/
theorem executeAsync_mask_noninterference (command : String) (stdin : Option StdinData)
    (os oe verbose : Bool) (r1 c1 r2 c2 : Option MaskRule)
    (cwd : Option String) (envOv : Option (List (String × String))) (aenv : AsyncEnv) :
    (executeAsyncModel command stdin os oe verbose r1 c1 cwd envOv aenv).launch.popen.args
      = [command]
    ∧ (executeAsyncModel command stdin os oe verbose r1 c1 cwd envOv aenv).launch
      = (executeAsyncModel command stdin os oe verbose r2 c2 cwd envOv aenv).launch := by
  rw [executeAsync_launch_eq command stdin os oe verbose r1 c1 cwd envOv aenv,
    executeAsync_launch_eq command stdin os oe verbose r2 c2 cwd envOv aenv]
  exact ⟨rfl, rfl⟩

/-- C6: when a stdin payload is supplied and writing it or closing the
stream fails with a broken-pipe-family errno (`EINVAL`, `EPIPE`,
`ESHUTDOWN`), `execute_async` does not fail: nothing is re-raised, no
kill is issued, and every log record beyond the start record is at most
a warning; when the write fails with any other errno, the spawned
process is killed and that errno is re-raised to the caller. -/
theorem executeAsync_stdin_error_policy (command : String) (d : StdinData)
    (os oe verbose : Bool) (instRule callRule : Option MaskRule)
    (cwd : Option String) (envOv : Option (List (String × String))) (aenv : AsyncEnv) :
    ((∀ e, aenv.writeErr = some e → pipeFamily e = true) →
     (∀ e, aenv.closeErr = some e → pipeFamily e = true) →
      (executeAsyncModel command (some d) os oe verbose instRule callRule cwd envOv
          aenv).raisedErrno = none
      ∧ (executeAsyncModel command (some d) os oe verbose instRule callRule cwd envOv
          aenv).killed = false
      ∧ ((executeAsyncModel command (some d) os oe verbose instRule callRule cwd envOv
          aenv).logs.all
            (fun l => l.kind == .execStart || l.level == .warning)) = true)
    ∧ (∀ e, aenv.writeErr = some e → pipeFamily e = false →
      (executeAsyncModel command (some d) os oe verbose instRule callRule cwd envOv
          aenv).killed = true
      ∧ (executeAsyncModel command (some d) os oe verbose instRule callRule cwd envOv
          aenv).raisedErrno = some e) := by
  obtain ⟨we, ce⟩ := aenv
  constructor
  · intro hw hc
    cases we with
    | none =>
        cases ce with
        | none => exact ⟨rfl, rfl, rfl⟩
        | some e =>
            have h := hc e rfl
            simp only [pipeFamily, Bool.or_eq_true, beq_iff_eq] at h
            rcases h with (rfl | rfl) | rfl <;> exact ⟨rfl, rfl, rfl⟩
    | some e =>
        have h := hw e rfl
        simp only [pipeFamily, Bool.or_eq_true, beq_iff_eq] at h
        cases ce with
        | none => rcases h with (rfl | rfl) | rfl <;> exact ⟨rfl, rfl, rfl⟩
        | some e2 =>
            have h2 := hc e2 rfl
            simp only [pipeFamily, Bool.or_eq_true, beq_iff_eq] at h2
            rcases h with (rfl | rfl) | rfl <;> rcases h2 with (rfl | rfl) | rfl <;>
              exact ⟨rfl, rfl, rfl⟩
  · intro e hwe hnf
    simp only at hwe
    subst hwe
    simp only [pipeFamily, Bool.or_eq_false_iff, beq_eq_false_iff_ne, ne_eq] at hnf
    obtain ⟨⟨h1, h2⟩, h3⟩ := hnf
    constructor <;> simp [executeAsyncModel, h1, h2, h3]

/-- C6 witness: an `EPIPE` write failure is downgraded (no kill, handle
returned, warnings only), while errno 13 (`EACCES`) kills the process
and is re-raised. -/
theorem executeAsync_stdin_error_policy_witness :
    ((executeAsyncModel "cat" (some (.bytes [104, 105])) true true false none none none none
        ⟨some EPIPE, none⟩).raisedErrno = none
      ∧ (executeAsyncModel "cat" (some (.bytes [104, 105])) true true false none none none none
        ⟨some EPIPE, none⟩).killed = false
      ∧ ((executeAsyncModel "cat" (some (.bytes [104, 105])) true true false none none none none
        ⟨some EPIPE, none⟩).logs.all
          (fun l => l.kind == .execStart || l.level == .warning)) = true)
    ∧ ((executeAsyncModel "cat" (some (.bytes [104, 105])) true true false none none none none
        ⟨some 13, none⟩).killed = true
      ∧ (executeAsyncModel "cat" (some (.bytes [104, 105])) true true false none none none none
        ⟨some 13, none⟩).raisedErrno = some 13) :=
  ⟨(executeAsync_stdin_error_policy "cat" (.bytes [104, 105]) true true false none none
      none none ⟨some EPIPE, none⟩).1
      (fun e he => Option.some.inj he ▸ rfl) (fun e he => nomatch he),
   (executeAsync_stdin_error_policy "cat" (.bytes [104, 105]) true true false none none
      none none ⟨some 13, none⟩).2 13 rfl rfl⟩

/-- C8 (amended): there is no command validation at the facade: for every
command string — including one that is empty after trimming — `execute`
hands the command unchanged to the `Popen` spawn; nothing is rejected
before launch. -/
theorem execute_never_validates (command : String) (stdin : Option StdinData) (os oe : Bool)
    (instRule callRule : Option MaskRule) (verbose : Bool) (timeout : Option Int)
    (cwd : Option String) (envOv : Option (List (String × String)))
    (aenv : AsyncEnv) (penv : ProcEnv) :
    (executeModel command stdin os oe instRule callRule verbose timeout cwd envOv aenv
        penv).launch.popen.args = [command] := by
  have h := executeAsync_launch_eq command stdin os oe verbose instRule callRule cwd envOv aenv
  simp only [executeModel]
  split <;> (try split) <;> simp [h]

/-- C8 counterexample: the empty command is not rejected: `execute` on
the command `""` spawns a shell process with argument list `[""]` and
returns its result normally, rather than failing before launching any
process. -/
theorem execute_empty_command_counterexample :
    (executeModel "" none true true none none false (some 3600) none none
        ⟨none, none⟩ ⟨some 0, none, false, none, [], []⟩).launch.popen.args = [""]
    ∧ (executeModel "" none true true none none false (some 3600) none none
        ⟨none, none⟩ ⟨some 0, none, false, none, [], []⟩).outcome
      = .ok ⟨"", some 0, [], []⟩ := by
  refine ⟨by decide, by decide⟩

theorem executeAsync_logs_no_outcome (command : String) (stdin : Option StdinData)
    (os oe verbose : Bool) (instRule callRule : Option MaskRule)
    (cwd : Option String) (envOv : Option (List (String × String))) (aenv : AsyncEnv) :
    (executeAsyncModel command stdin os oe verbose instRule callRule cwd envOv
        aenv).logs.filter (fun l => reportsOutcome l.kind) = [] := by
  obtain ⟨we, ce⟩ := aenv
  unfold executeAsyncModel closeStdinPhase
  cases stdin <;> cases we <;> cases ce <;> dsimp only <;> split_ifs <;> rfl

/-- C7 (amended): on every `execute` call — whatever the stdin payload
and however the stdin pipe behaves — the log records that report the
outcome (masked command plus resulting or absent exit code) are: on
success, exactly one summary record at info level when verbose was
requested and debug otherwise; on timeout, exactly one record — the
state machine's wait-error record — emitted at debug level regardless of
the verbose flag.  The original claim's "info when verbose" does not
hold on the timeout path; see the counterexample. -/
theorem execute_outcome_logging (command : String) (stdin : Option StdinData) (os oe : Bool)
    (instRule callRule : Option MaskRule) (verbose : Bool) (timeout : Option Int)
    (cwd : Option String) (envOv : Option (List (String × String)))
    (aenv : AsyncEnv) (penv : ProcEnv) :
    (∀ r, (executeModel command stdin os oe instRule callRule verbose timeout cwd envOv aenv
        penv).outcome = .ok r →
      (executeModel command stdin os oe instRule callRule verbose timeout cwd envOv aenv
          penv).logs.filter (fun l => reportsOutcome l.kind)
        = [⟨if verbose then .info else .debug, .execSummary, r.cmd, some r.exit_code⟩])
    ∧ (∀ r t, (executeModel command stdin os oe instRule callRule verbose timeout cwd envOv aenv
        penv).outcome = .timeoutErr r t →
      (executeModel command stdin os oe instRule callRule verbose timeout cwd envOv aenv
          penv).logs.filter (fun l => reportsOutcome l.kind)
        = [⟨.debug, .waitError, r.cmd, some none⟩]) := by
  have hlogs := executeAsync_logs_no_outcome command stdin os oe verbose instRule callRule
    cwd envOv aenv
  obtain ⟨w, p, kr, pk, so, se⟩ := penv
  constructor
  · intro r hr
    cases hre : (executeAsyncModel command stdin os oe verbose instRule callRule cwd envOv
        aenv).raisedErrno with
    | some e => simp [executeModel, hre] at hr
    | none =>
        cases w <;> cases p <;> cases kr <;> cases pk <;>
          simp_all [executeModel, execCommandModel, reportsOutcome, List.filter_append]
  · intro r t hr
    cases hre : (executeAsyncModel command stdin os oe verbose instRule callRule cwd envOv
        aenv).raisedErrno with
    | some e => simp [executeModel, hre] at hr
    | none =>
        cases w <;> cases p <;> cases kr <;> cases pk <;>
          simp_all [executeModel, execCommandModel, reportsOutcome, List.filter_append] <;>
          (try simp [← hr.1]) <;> (try exact hlogs)

/-- C7 witness: a verbose successful run feeding the bytes of `hello` to
the command's stdin emits exactly one outcome record, the summary, at
info level. -/
theorem execute_outcome_logging_witness :
    (executeModel "cat" (some (.bytes [104, 101, 108, 108, 111])) true true none none true
        (some 5) none none ⟨none, none⟩
        ⟨some 0, none, false, none, [104, 101, 108, 108, 111], []⟩).logs.filter
          (fun l => reportsOutcome l.kind)
      = [⟨.info, .execSummary, "cat", some (some 0)⟩] := by
  have h := (execute_outcome_logging "cat" (some (.bytes [104, 101, 108, 108, 111])) true true
      none none true (some 5) none none ⟨none, none⟩
      ⟨some 0, none, false, none, [104, 101, 108, 108, 111], []⟩).1
      ⟨"cat", some 0, [104, 101, 108, 108, 111], []⟩ (by decide)
  rw [h]
  decide

/-- C7 counterexample: on a verbose call that times out, the only
outcome-reporting record is the wait-error record at debug level — not
info level as the claim requires for a verbose call — because the raised
timeout error propagates past the facade's summary log statement. -/
theorem execute_log_level_counterexample :
    ((executeModel "sleep 10" none true true none none true (some 1) none none
        ⟨none, none⟩ ⟨none, none, false, none, [], []⟩).logs.filter
          (fun l => reportsOutcome l.kind))
      = [⟨.debug, .waitError, "sleep 10", some none⟩]
    ∧ LogLevel.debug ≠ LogLevel.info := by
  refine ⟨by decide, by decide⟩

end ExecHelpers
